import Mathlib

/-!
Verification of the access-control and OTP pairing subsystem of the
whatsapp-roll-bot repository. The definitions below are a shallow embedding
of `src/otpStore.ts` (class `EncryptedOtpStore`) and of the mode-aware
`accessControl.ts` factory. JavaScript `Map` objects are embedded as
association lists with the `Map` operations (`get`, `set`, `delete`) as
`mapGet`, `mapSet`, `mapDelete`; `Map` keys are unique, which appears below
as the `keysNodup` invariant. `Date.now()` is passed in as an explicit
`now : Nat` (milliseconds); the few functions that read the clock twice in
one call are modelled with a single instant, as the two reads happen
microseconds apart and no branch distinguishes them. The cryptographically
strong random source (`crypto.randomInt`, `crypto.randomBytes`) is passed
in as pre-sampled values (`RandomSource`) together with the range contract
the library guarantees.
-/

namespace RollBot

/-- `Map.get`: first (and, with unique keys, only) binding of `k`. -/
def mapGet {α : Type} (m : List (String × α)) (k : String) : Option α :=
  match m with
  | [] => none
  | (k1, v1) :: rest => if k1 = k then some v1 else mapGet rest k

/-- `Map.set`: replace the binding of `k` in place, else append. -/
def mapSet {α : Type} (m : List (String × α)) (k : String) (v : α) : List (String × α) :=
  match m with
  | [] => [(k, v)]
  | (k1, v1) :: rest => if k1 = k then (k, v) :: rest else (k1, v1) :: mapSet rest k v

/-- `Map.delete`: remove the binding of `k` (keys are unique in a JS Map). -/
def mapDelete {α : Type} (m : List (String × α)) (k : String) : List (String × α) :=
  m.filter (fun kv => decide (kv.1 ≠ k))

/-- The JS `Map` invariant: every key has at most one binding. -/
def keysNodup {α : Type} (m : List (String × α)) : Prop :=
  (m.map Prod.fst).Nodup

instance {α : Type} (m : List (String × α)) : Decidable (keysNodup m) := by
  unfold keysNodup; infer_instance

/-- Number of bindings a key has in a map. -/
def countKey {α : Type} (m : List (String × α)) (k : String) : Nat :=
  (m.filter (fun kv => decide (kv.1 = k))).length

/-- `{ code: string, expiresAt: number }` from `otpStore.ts`. -/
structure OtpEntry where
  code : String
  expiresAt : Nat
deriving DecidableEq

/-- The `RngType` union `'numeric' | 'alphanumeric' | 'hex' | 'mini-llm'`. -/
inductive RngType where
  | numeric : RngType
  | alphanumeric : RngType
  | hex : RngType
  | miniLlm : RngType
deriving DecidableEq

/-- The plain object `{ otps, failures, jailed }` built by `save` and parsed
back by `load` (its JSON serialization is a bijection on this data). -/
structure StoreObj where
  otps : List (String × OtpEntry)
  failures : List (String × Nat)
  jailed : List (String × Nat)
deriving DecidableEq

/-- Encryption key (the configured 64-hex-char `keyHex`, treated opaquely). -/
abbrev Key := String

/-- Modelled from the spec: the AES-256-GCM envelope produced by Node's
`crypto` library (external to the repository) is modelled symbolically as an
authenticated-encryption scheme: `nonce-tag-ciphertext`, where the tag binds
the key and the exact payload, and decryption yields the payload exactly when
the tag authenticates under the presented key ("random nonce per write,
integrity tag verified on read"). -/
structure Ciphertext where
  iv : Nat
  tagKey : Key
  tagObj : StoreObj
  data : StoreObj
deriving DecidableEq

/-- `encryptObject` of `otpStore.ts`: seal `obj` under `key` with nonce `iv`. -/
def encryptObject (obj : StoreObj) (key : Key) (iv : Nat) : Ciphertext :=
  { iv := iv, tagKey := key, tagObj := obj, data := obj }

/-- `decryptObject` of `otpStore.ts`: authenticate, then reveal the payload;
a wrong key or a payload that does not match the tag fails (GCM tag check). -/
def decryptObject (c : Ciphertext) (key : Key) : Option StoreObj :=
  if c.tagKey = key ∧ c.tagObj = c.data then some c.data else none

/-- The `EncryptedOtpStore` instance state: configuration fields set by the
constructor, the three in-memory maps, and the contents of the single
persisted file `otps.enc` (`none` = file absent/unreadable). -/
structure EncryptedOtpStore where
  keyHex : Option Key
  otpTTL : Nat
  otpLength : Nat
  rngType : RngType
  jailThreshold : Nat
  jailDurationMs : Nat
  otpMap : List (String × OtpEntry)
  failures : List (String × Nat)
  jailedUntil : List (String × Nat)
  file : Option Ciphertext
deriving DecidableEq

/-- The serialization loop of `save`: dump the three maps into a plain object. -/
def storeObj (s : EncryptedOtpStore) : StoreObj :=
  { otps := s.otpMap, failures := s.failures, jailed := s.jailedUntil }

/-- `save()`: without a key it is a no-op returning `false`; with a key it
encrypts the serialized state under a fresh nonce and writes the file. -/
def save (s : EncryptedOtpStore) (iv : Nat) : EncryptedOtpStore × Bool :=
  match s.keyHex with
  | none => (s, false)
  | some key => ({ s with file := some (encryptObject (storeObj s) key iv) }, true)

/-- The `for (const [k, v] of Object.entries ...) map.set(k, v)` loops of
`load`, replayed over an initial map. -/
def loadEntries {α : Type} (init : List (String × α)) (l : List (String × α)) :
    List (String × α) :=
  l.foldl (fun m kv => mapSet m kv.1 kv.2) init

/-- `load()`: decrypt the file and rebuild the maps (`otpMap` is cleared
first; `failures`/`jailedUntil` are populated over their current contents,
as in the source). Any read/decrypt failure is caught: it logs, returns
`false` and leaves the in-memory maps untouched. -/
def load (s : EncryptedOtpStore) : EncryptedOtpStore × Bool :=
  match s.keyHex with
  | none => (s, false)
  | some key =>
    match s.file with
    | none => (s, false)
    | some c =>
      match decryptObject c key with
      | none => (s, false)
      | some obj =>
        ({ s with
            otpMap := loadEntries [] obj.otps
            failures := loadEntries s.failures obj.failures
            jailedUntil := loadEntries s.jailedUntil obj.jailed }, true)

/-- Decimal digits of `n`, least significant first (`String(num)` helper). -/
def decDigitsAux : Nat → List Char
  | 0 => []
  | n + 1 => Nat.digitChar ((n + 1) % 10) :: decDigitsAux ((n + 1) / 10)
decreasing_by exact Nat.div_lt_self (Nat.succ_pos n) (by decide)

/-- JS `String(num)` for a natural number. -/
def jsNumToString (n : Nat) : List Char :=
  if n = 0 then ['0'] else (decDigitsAux n).reverse

/-- JS `String.prototype.padStart(len, c)`. -/
def padStart (s : List Char) (len : Nat) (c : Char) : List Char :=
  if len ≤ s.length then s else List.replicate (len - s.length) c ++ s

/-- `generateNumeric`: `String(crypto.randomInt(0, 10 ** otpLength))`
zero-padded to the configured length; `num` is the sampled value. -/
def generateNumeric (otpLength : Nat) (num : Nat) : List Char :=
  padStart (jsNumToString num) otpLength '0'

/-- The ambiguity-reduced charset of `generateAlphanumeric`. -/
def alphaChars : List Char :=
  "ABCDEFGHJKLMNPQRSTUVWXYZabcdefghijkmnopqrstuvwxyz23456789".toList

/-- `generateAlphanumeric`: one uniformly sampled charset index per position
(`idx i` is the value of `crypto.randomInt(0, chars.length)` at loop step `i`). -/
def generateAlphanumeric (otpLength : Nat) (idx : Nat → Nat) : List Char :=
  (List.range otpLength).map (fun i => alphaChars.getD (idx i) 'A')

/-- Two lowercase hex digits of one byte (`Buffer.toString('hex')`). -/
def byteToHex (b : Nat) : List Char :=
  [Nat.digitChar (b / 16), Nat.digitChar (b % 16)]

/-- `generateHex`: hex-encode `Math.ceil(otpLength / 2)` random bytes and
truncate to the configured length; `bs` are the sampled bytes. -/
def generateHex (otpLength : Nat) (bs : List Nat) : List Char :=
  ((bs.map byteToHex).flatten).take otpLength

/-- The fixed syllable set of the `mini-llm` generator. -/
def syllables : List String :=
  ["ra", "ne", "lo", "mi", "sa", "tu", "ve", "ka", "zu", "pi", "on", "el"]

/-- Syllable at a sampled index (in range under the `randomInt` contract). -/
def sylAt (i : Nat) : List Char :=
  (syllables.getD i "ra").toList

theorem sylAt_length (i : Nat) : (sylAt i).length = 2 := by
  by_cases h : i < 12
  · interval_cases i <;> rfl
  · unfold sylAt
    rw [List.getD_eq_default]
    · rfl
    · simp only [syllables, List.length_cons, List.length_nil]
      omega

/-- The `while (out.length < this.otpLength)` accumulation loop of
`generateMiniLlm`; `pick k` is the syllable index sampled at step `k`. -/
def miniLlmLoop (otpLength : Nat) (pick : Nat → Nat) (k : Nat) (out : List Char) :
    List Char :=
  if _h : out.length < otpLength then
    miniLlmLoop otpLength pick (k + 1) (out ++ sylAt (pick k))
  else out
termination_by otpLength - out.length
decreasing_by simp only [List.length_append, sylAt_length]; omega

/-- `generateMiniLlm`: compose pronounceable syllables, then `slice(0, L)`. -/
def generateMiniLlm (otpLength : Nat) (pick : Nat → Nat) : List Char :=
  (miniLlmLoop otpLength pick 0 []).take otpLength

/-- The lifecycle events emitted by the store. -/
inductive Event where
  | generated : String → String → Nat → Event
  | verified : String → Event
  | failed : String → Event
  | expired : String → Event
  | deleted : String → Bool → Event
  | jailed : String → Nat → Event
  | unjailed : String → Event
  | attemptWhileJailed : String → Nat → Event
  | verifyBlocked : String → Nat → Event
deriving DecidableEq

/-- The two `throw new Error(...)` sites of `generate`: the validation error
for an empty jid, and the lockout error carrying the jail expiry. -/
inductive GenErr where
  | jidRequired : GenErr
  | jailed : Nat → GenErr
deriving DecidableEq

/-- The `{ code, expiresAt }` object returned by `generate`. -/
structure GenResult where
  code : String
  expiresAt : Nat
deriving DecidableEq

/-- Pre-sampled values of the cryptographic random source for one `generate`
call: `num` for the numeric family, `idx` per alphanumeric loop step, `bytes`
for hex, `syl` per mini-llm loop step, `iv` for the save nonce. -/
structure RandomSource where
  num : Nat
  idx : Nat → Nat
  bytes : List Nat
  syl : Nat → Nat
  iv : Nat

/-- The library contract of `crypto.randomInt` / `crypto.randomBytes` for a
configured length `L`. -/
def RandomSource.Valid (r : RandomSource) (L : Nat) : Prop :=
  r.num < 10 ^ L ∧ (∀ i, r.idx i < alphaChars.length) ∧
    r.bytes.length = (L + 1) / 2 ∧ (∀ i, r.syl i < syllables.length)

/-- The `if/else if/else` generator dispatch of `generate` (the final `else`
is the mini-llm family). -/
def codeFor (otpLength : Nat) (r : RandomSource) : RngType → List Char
  | RngType.numeric => generateNumeric otpLength r.num
  | RngType.alphanumeric => generateAlphanumeric otpLength r.idx
  | RngType.hex => generateHex otpLength r.bytes
  | RngType.miniLlm => generateMiniLlm otpLength r.syl

/-- Result of one `generate` call: the returned/thrown value, the store
after the call, and the events emitted (in order). -/
structure GenOut where
  result : Except GenErr GenResult
  store : EncryptedOtpStore
  events : List Event

/-- `generate(jid, opts?)` of `otpStore.ts`. -/
def generate (s : EncryptedOtpStore) (now : Nat) (r : RandomSource) (jid : String)
    (rngOverride : Option RngType) : GenOut :=
  if jid = "" then { result := Except.error GenErr.jidRequired, store := s, events := [] }
  else
    let ju := (mapGet s.jailedUntil jid).getD 0
    if now < ju then
      { result := Except.error (GenErr.jailed ju), store := s
        events := [Event.attemptWhileJailed jid ju] }
    else
      let rng := rngOverride.getD s.rngType
      let code := String.mk (codeFor s.otpLength r rng)
      let expiresAt := now + s.otpTTL * 1000
      let s1 := { s with otpMap := mapSet s.otpMap jid { code := code, expiresAt := expiresAt } }
      { result := Except.ok { code := code, expiresAt := expiresAt }
        store := (save s1 r.iv).1
        events := [Event.generated jid code expiresAt] }

/-- `recordFailure(jid)`: bump the counter; when the incremented counter is a
positive multiple of the jail threshold, jail the jid and reset the counter. -/
def recordFailure (s : EncryptedOtpStore) (now iv : Nat) (jid : String) :
    EncryptedOtpStore × List Event :=
  let prev := (mapGet s.failures jid).getD 0
  let current := prev + 1
  let s1 := { s with failures := mapSet s.failures jid current }
  if 0 < current ∧ current % s.jailThreshold = 0 then
    let u := now + s.jailDurationMs
    let s2 := { s1 with
        jailedUntil := mapSet s1.jailedUntil jid u
        failures := mapSet s1.failures jid 0 }
    ((save s2 iv).1, [Event.jailed jid u])
  else
    ((save s1 iv).1, [])

/-- Result of one `verify` call. -/
structure VerifyOut where
  ok : Bool
  store : EncryptedOtpStore
  events : List Event

/-- `verify(jid, code)` of `otpStore.ts`. -/
def verify (s : EncryptedOtpStore) (now iv : Nat) (jid code : String) : VerifyOut :=
  let ju := (mapGet s.jailedUntil jid).getD 0
  if now < ju then { ok := false, store := s, events := [Event.verifyBlocked jid ju] }
  else
    match mapGet s.otpMap jid with
    | none => { ok := false, store := s, events := [] }
    | some entry =>
      if entry.expiresAt ≤ now then
        let s1 := { s with otpMap := mapDelete s.otpMap jid }
        { ok := false, store := (save s1 iv).1, events := [Event.expired jid] }
      else if entry.code = code then
        let s1 := { s with
            otpMap := mapDelete s.otpMap jid
            failures := mapDelete s.failures jid }
        { ok := true, store := (save s1 iv).1, events := [Event.verified jid] }
      else
        let p := recordFailure s now iv jid
        { ok := false, store := p.1, events := p.2 ++ [Event.failed jid] }

/-- `delete(jid)` of `otpStore.ts`. -/
def deleteOtp (s : EncryptedOtpStore) (iv : Nat) (jid : String) :
    Bool × EncryptedOtpStore × List Event :=
  let ok := (mapGet s.otpMap jid).isSome
  let s1 := { s with otpMap := mapDelete s.otpMap jid }
  let s2 := if ok then (save s1 iv).1 else s1
  (ok, s2, [Event.deleted jid ok])

/-- `cleanup()` of `otpStore.ts`: drop expired OTP entries (tracking whether
any was dropped) and expired jail records, then save if `changed`. -/
def cleanup (s : EncryptedOtpStore) (now iv : Nat) : Bool × EncryptedOtpStore :=
  let changed := s.otpMap.any (fun kv => decide (kv.2.expiresAt ≤ now))
  let s1 := { s with
      otpMap := s.otpMap.filter (fun kv => decide (now < kv.2.expiresAt))
      jailedUntil := s.jailedUntil.filter (fun kv => decide (now < kv.2)) }
  if changed then (true, (save s1 iv).1) else (false, s1)

/-- `unjail(jid)` of `otpStore.ts`. -/
def unjail (s : EncryptedOtpStore) (iv : Nat) (jid : String) :
    Bool × EncryptedOtpStore × List Event :=
  let had := (mapGet s.jailedUntil jid).isSome
  let s1 := { s with jailedUntil := mapDelete s.jailedUntil jid }
  if had then (true, (save s1 iv).1, [Event.unjailed jid]) else (false, s1, [])

/-- `n` consecutive `verify` calls with the same wrong code (state only). -/
def verifyIter (s : EncryptedOtpStore) (now iv : Nat) (jid c : String) :
    Nat → EncryptedOtpStore
  | 0 => s
  | n + 1 => (verify (verifyIter s now iv jid c n) now iv jid c).store

/-- The constructor options object of `EncryptedOtpStore` (the `dataDir`
file-path option only names the file and is not part of the state model). -/
structure StoreOpts where
  keyHex : Option String := none
  otpTTL : Option Nat := none
  otpLength : Option Nat := none
  rngType : Option RngType := none
  jailThreshold : Option Nat := none
  jailDurationSeconds : Option Nat := none

/-- JS `x || d` for an optional number: absent or `0` (falsy) gives `d`. -/
def orDefault (v : Option Nat) (d : Nat) : Nat :=
  match v with
  | none => d
  | some 0 => d
  | some (n + 1) => n + 1

/-- The `/^[0-9a-fA-F]{64}$/` key validation of the constructor. -/
def validKeyHex (k : String) : Bool :=
  k.length == 64 &&
    k.toList.all (fun c => c.isDigit || ('a' ≤ c && c ≤ 'f') || ('A' ≤ c && c ≤ 'F'))

/-- The `EncryptedOtpStore` constructor: apply the `||` defaults and drop a
falsy or malformed key (falling back to the in-memory-only store). -/
def mkStore (o : StoreOpts) : EncryptedOtpStore :=
  { keyHex :=
      match o.keyHex with
      | none => none
      | some k => if validKeyHex k then some k else none
    otpTTL := orDefault o.otpTTL 300
    otpLength := orDefault o.otpLength 6
    rngType := o.rngType.getD RngType.numeric
    jailThreshold := orDefault o.jailThreshold 3
    jailDurationMs := (orDefault o.jailDurationSeconds 3600) * 1000
    otpMap := []
    failures := []
    jailedUntil := []
    file := none }

/-!
Access Policy Evaluator: shallow embedding of the mode-aware
`createAccessControl` factory (`accessControl.ts`). Optional config fields
are embedded post-normalization (`cfg?.x ?? ... || []` makes a missing list
`[]`). The JS `RegExp` engine used for `blacklist.patterns` is external to
the repository and is passed in as a `regexTest : String → String → Bool`
oracle (pattern, text). JS falsy strings (`undefined` and `""`) are
`Option String` values failing the `jsTruthy` test.
-/

/-- Non-falsy string test (`if (!value) return false` in the source). -/
def jsTruthy : Option String → Bool
  | none => false
  | some v => !(v == "")

/-- JS `String.prototype.includes` (substring containment). -/
def jsIncludes (v p : String) : Bool :=
  decide (p.toList <:+: v.toList)

/-- `matchWithOption`: exact inclusion, or substring containment when
`allowPartialMatches` is on. -/
def matchWithOption (allowPartial : Bool) (list : List String) (value : Option String) :
    Bool :=
  match value with
  | none => false
  | some v =>
    if v = "" then false
    else if list.isEmpty then false
    else if allowPartial then list.any (fun p => jsIncludes v p)
    else list.contains v

/-- The prefix-matching helper of `accessControl.ts` (`value.startsWith(p)`
against a configured list). -/
def matchStartsWith (list : List String) (value : Option String) : Bool :=
  match value with
  | none => false
  | some v =>
    if v = "" then false
    else if list.isEmpty then false
    else list.any (fun p => v.startsWith p)

/-- The `whitelist` rule lists (missing lists normalized to `[]`). -/
structure WhitelistRules where
  commands : List String := []
  groups : List String := []
  contacts : List String := []
  prefixes : List String := []
deriving DecidableEq

/-- The `blacklist` rule lists. -/
structure BlacklistRules where
  patterns : List String := []
  commands : List String := []
  groups : List String := []
  contacts : List String := []
  prefixes : List String := []
deriving DecidableEq

/-- The `options` flags. -/
structure AccessOptions where
  allowPartialMatches : Bool := false
  disallowIndividuals : Bool := false
  disallowGroups : Bool := false
deriving DecidableEq

/-- The `mode` union `'default' | 'whitelist' | 'blacklist'`. -/
inductive AccessMode where
  | default : AccessMode
  | whitelist : AccessMode
  | blacklist : AccessMode
deriving DecidableEq

/-- The access-control configuration (the `pairing` and `admin` sections are
not consulted by `isMessageAllowed` and are omitted here). -/
structure AccessConfig where
  mode : Option AccessMode := none
  whitelist : WhitelistRules := {}
  blacklist : BlacklistRules := {}
  options : AccessOptions := {}
deriving DecidableEq

/-- The `{ text, from, isGroup, groupJid }` argument of `isMessageAllowed`
(`from` is a Lean keyword, so the field is named `sender`). -/
structure MsgOpts where
  text : Option String := none
  sender : Option String := none
  isGroup : Bool := false
  groupJid : Option String := none

def isContactWhitelisted (cfg : AccessConfig) (jid : Option String) : Bool :=
  matchWithOption cfg.options.allowPartialMatches cfg.whitelist.contacts jid

def isGroupWhitelisted (cfg : AccessConfig) (groupJid : Option String) : Bool :=
  matchWithOption cfg.options.allowPartialMatches cfg.whitelist.groups groupJid

def isContactBlacklisted (cfg : AccessConfig) (jid : Option String) : Bool :=
  matchWithOption cfg.options.allowPartialMatches cfg.blacklist.contacts jid

def isGroupBlacklisted (cfg : AccessConfig) (groupJid : Option String) : Bool :=
  matchWithOption cfg.options.allowPartialMatches cfg.blacklist.groups groupJid

/-- `isTextBlacklisted`: any configured pattern matches the text (via the
case-insensitive `RegExp` oracle). -/
def isTextBlacklisted (regexTest : String → String → Bool)
    (patterns : List String) (text : Option String) : Bool :=
  match text with
  | none => false
  | some t => if t = "" then false else patterns.any (fun p => regexTest p t)

/-- `(text || '').trim().split(/\s+/)[0]`. -/
def firstToken (text : Option String) : String :=
  (((text.getD "").trim).split (fun c => c.isWhitespace)).headD ""

def isCommandWhitelisted (cfg : AccessConfig) (command : String) : Bool :=
  if command = "" then false else cfg.whitelist.commands.contains command

/-- `isMessageAllowed` of the mode-aware `createAccessControl`. -/
def isMessageAllowed (cfg : AccessConfig) (regexTest : String → String → Bool)
    (m : MsgOpts) : Bool :=
  if cfg.options.disallowIndividuals && !m.isGroup then false
  else if cfg.options.disallowGroups && m.isGroup then false
  else if isContactBlacklisted cfg m.sender ||
      matchStartsWith cfg.blacklist.prefixes m.sender then false
  else if m.isGroup && isGroupBlacklisted cfg m.groupJid then false
  else if isTextBlacklisted regexTest cfg.blacklist.patterns m.text then false
  else
    let mode := cfg.mode.getD AccessMode.default
    if mode = AccessMode.blacklist then true
    else
      let hasAnyWhitelist := !cfg.whitelist.commands.isEmpty ||
        !cfg.whitelist.contacts.isEmpty || !cfg.whitelist.groups.isEmpty ||
        !cfg.whitelist.prefixes.isEmpty
      if mode = AccessMode.whitelist then
        if !hasAnyWhitelist then false
        else if isContactWhitelisted cfg m.sender ||
            matchStartsWith cfg.whitelist.prefixes m.sender then true
        else if m.isGroup && isGroupWhitelisted cfg m.groupJid then true
        else isCommandWhitelisted cfg (firstToken m.text)
      else
        if !hasAnyWhitelist then true
        else if isContactWhitelisted cfg m.sender ||
            matchStartsWith cfg.whitelist.prefixes m.sender then true
        else if m.isGroup && isGroupWhitelisted cfg m.groupJid then true
        else isCommandWhitelisted cfg (firstToken m.text)

/-! Frame lemmas: `save` touches only the persisted file. -/

@[simp]
theorem save_otpMap (s : EncryptedOtpStore) (iv : Nat) :
    ((save s iv).1).otpMap = s.otpMap := by
  cases h : s.keyHex <;> simp [save, h]

@[simp]
theorem save_failures (s : EncryptedOtpStore) (iv : Nat) :
    ((save s iv).1).failures = s.failures := by
  cases h : s.keyHex <;> simp [save, h]

@[simp]
theorem save_jailedUntil (s : EncryptedOtpStore) (iv : Nat) :
    ((save s iv).1).jailedUntil = s.jailedUntil := by
  cases h : s.keyHex <;> simp [save, h]

@[simp]
theorem save_jailThreshold (s : EncryptedOtpStore) (iv : Nat) :
    ((save s iv).1).jailThreshold = s.jailThreshold := by
  cases h : s.keyHex <;> simp [save, h]

@[simp]
theorem save_jailDurationMs (s : EncryptedOtpStore) (iv : Nat) :
    ((save s iv).1).jailDurationMs = s.jailDurationMs := by
  cases h : s.keyHex <;> simp [save, h]

@[simp]
theorem save_keyHex (s : EncryptedOtpStore) (iv : Nat) :
    ((save s iv).1).keyHex = s.keyHex := by
  cases h : s.keyHex <;> simp [save, h]

/-! Association-list lemmas for the JS `Map` operations. -/

theorem mapGet_set_self {α : Type} (m : List (String × α)) (k : String) (v : α) :
    mapGet (mapSet m k v) k = some v := by
  induction m with
  | nil => simp [mapGet, mapSet]
  | cons kv rest ih =>
    by_cases h : kv.1 = k
    · simp [mapGet, mapSet, h]
    · simp [mapGet, mapSet, h, ih]

theorem mapGet_set_ne {α : Type} (m : List (String × α)) (k k1 : String) (v : α)
    (h : k1 ≠ k) : mapGet (mapSet m k v) k1 = mapGet m k1 := by
  induction m with
  | nil => simp [mapGet, mapSet, Ne.symm h]
  | cons kv rest ih =>
    by_cases hk : kv.1 = k
    · simp [mapGet, mapSet, hk, Ne.symm h]
    · simp only [mapSet, if_neg hk, mapGet]
      by_cases hk1 : kv.1 = k1 <;> simp [hk1, ih]

theorem mapGet_delete_self {α : Type} (m : List (String × α)) (k : String) :
    mapGet (mapDelete m k) k = none := by
  induction m with
  | nil => rfl
  | cons kv rest ih =>
    by_cases h : kv.1 = k
    · simpa [mapDelete, List.filter_cons, h] using ih
    · simpa [mapDelete, List.filter_cons, h, mapGet] using ih

theorem mapGet_delete_ne {α : Type} (m : List (String × α)) (k k1 : String)
    (h : k1 ≠ k) : mapGet (mapDelete m k) k1 = mapGet m k1 := by
  induction m with
  | nil => rfl
  | cons kv rest ih =>
    by_cases hk : kv.1 = k
    · have hne : ¬(k = k1) := Ne.symm h
      simpa [mapDelete, List.filter_cons, hk, mapGet, hne] using ih
    · by_cases hk1 : kv.1 = k1
      · simp [mapDelete, List.filter_cons, hk, mapGet, hk1, h]
      · simpa [mapDelete, List.filter_cons, hk, mapGet, hk1] using ih

theorem mapSet_of_get_none {α : Type} (m : List (String × α)) (k : String) (v : α)
    (h : mapGet m k = none) : mapSet m k v = m ++ [(k, v)] := by
  induction m with
  | nil => simp [mapSet]
  | cons kv rest ih =>
    by_cases hk : kv.1 = k
    · simp [mapGet, hk] at h
    · simp only [mapGet, if_neg hk] at h
      simp [mapSet, hk, ih h]

theorem mapSet_of_get_self {α : Type} (m : List (String × α)) (k : String) (v : α)
    (h : mapGet m k = some v) : mapSet m k v = m := by
  induction m with
  | nil => simp [mapGet] at h
  | cons kv rest ih =>
    by_cases hk : kv.1 = k
    · simp only [mapGet, if_pos hk] at h
      cases kv
      simp_all [mapSet]
    · simp only [mapGet, if_neg hk] at h
      simp [mapSet, hk, ih h]

theorem mapGet_append {α : Type} (m1 m2 : List (String × α)) (k : String) :
    mapGet (m1 ++ m2) k =
      match mapGet m1 k with
      | some v => some v
      | none => mapGet m2 k := by
  induction m1 with
  | nil => simp [mapGet]
  | cons kv rest ih =>
    by_cases hk : kv.1 = k <;> simp [mapGet, hk, ih]

theorem keysNodup_get_mem {α : Type} (m : List (String × α))
    (h : keysNodup m) : ∀ kv ∈ m, mapGet m kv.1 = some kv.2 := by
  induction m with
  | nil => simp
  | cons kv rest ih =>
    simp only [keysNodup, List.map_cons, List.nodup_cons] at h
    intro kv1 hmem
    rcases List.mem_cons.mp hmem with hh | ht
    · simp [hh, mapGet]
    · have hne : kv.1 ≠ kv1.1 := by
        intro he
        exact h.1 (he ▸ List.mem_map_of_mem Prod.fst ht)
      simp only [mapGet, if_neg hne]
      exact ih h.2 kv1 ht

/-! Replay lemmas for the `load` entry loops. -/

theorem loadEntries_disjoint {α : Type} (l acc : List (String × α))
    (hn : keysNodup l) (hd : ∀ kv ∈ l, mapGet acc kv.1 = none) :
    loadEntries acc l = acc ++ l := by
  induction l generalizing acc with
  | nil => simp [loadEntries]
  | cons kv rest ih =>
    simp only [keysNodup, List.map_cons, List.nodup_cons] at hn
    have hset : mapSet acc kv.1 kv.2 = acc ++ [kv] := by
      rw [mapSet_of_get_none acc kv.1 kv.2 (hd kv (List.mem_cons_self kv rest))]
    have hrest : ∀ kv1 ∈ rest, mapGet (acc ++ [kv]) kv1.1 = none := by
      intro kv1 hmem
      rw [mapGet_append]
      have h1 : mapGet acc kv1.1 = none := hd kv1 (List.mem_cons_of_mem kv hmem)
      have hne : kv.1 ≠ kv1.1 := by
        intro he
        exact hn.1 (he ▸ List.mem_map_of_mem Prod.fst hmem)
      simp [h1, mapGet, hne]
    calc loadEntries acc (kv :: rest)
        = loadEntries (mapSet acc kv.1 kv.2) rest := rfl
      _ = (acc ++ [kv]) ++ rest := by rw [hset]; exact ih (acc ++ [kv]) hn.2 hrest
      _ = acc ++ kv :: rest := by simp

theorem loadEntries_nil_init {α : Type} (l : List (String × α)) (hn : keysNodup l) :
    loadEntries [] l = l := by
  have := loadEntries_disjoint l [] hn (by intro kv _; rfl)
  simpa using this

theorem loadEntries_self {α : Type} (m : List (String × α)) (hn : keysNodup m) :
    loadEntries m m = m := by
  have key : ∀ (l acc : List (String × α)),
      (∀ kv ∈ l, mapGet acc kv.1 = some kv.2) → loadEntries acc l = acc := by
    intro l
    induction l with
    | nil => intro acc _; rfl
    | cons kv rest ih =>
      intro acc hacc
      have hset : mapSet acc kv.1 kv.2 = acc :=
        mapSet_of_get_self acc kv.1 kv.2 (hacc kv (List.mem_cons_self kv rest))
      calc loadEntries acc (kv :: rest)
          = loadEntries (mapSet acc kv.1 kv.2) rest := rfl
        _ = acc := by rw [hset]; exact ih acc (fun kv1 h1 => hacc kv1 (List.mem_cons_of_mem kv h1))
  exact key m m (keysNodup_get_mem m hn)

/-! Length lemmas for the four code generators. -/

theorem decDigitsAux_length_le (L : Nat) : ∀ n, n < 10 ^ L → (decDigitsAux n).length ≤ L := by
  induction L with
  | zero =>
    intro n hn
    interval_cases n
    simp [decDigitsAux]
  | succ L ih =>
    intro n hn
    match n with
    | 0 => simp [decDigitsAux]
    | m + 1 =>
      rw [decDigitsAux]
      simp only [List.length_cons]
      have hdiv : (m + 1) / 10 < 10 ^ L := by
        rw [Nat.div_lt_iff_lt_mul (by decide : 0 < 10)]
        calc m + 1 < 10 ^ (L + 1) := hn
          _ = 10 ^ L * 10 := by rw [Nat.pow_succ]
      have := ih ((m + 1) / 10) hdiv
      omega

theorem jsNumToString_length_le (L n : Nat) (hL : 0 < L) (hn : n < 10 ^ L) :
    (jsNumToString n).length ≤ L := by
  unfold jsNumToString
  split
  · simpa using hL
  · simpa using decDigitsAux_length_le L n hn

theorem padStart_length (s : List Char) (len : Nat) (c : Char)
    (h : s.length ≤ len) : (padStart s len c).length = len := by
  unfold padStart
  split
  · omega
  · simp only [List.length_append, List.length_replicate]
    omega

theorem length_generateNumeric (L num : Nat) (hL : 0 < L) (hnum : num < 10 ^ L) :
    (generateNumeric L num).length = L :=
  padStart_length _ _ _ (jsNumToString_length_le L num hL hnum)

theorem length_generateAlphanumeric (L : Nat) (idx : Nat → Nat) :
    (generateAlphanumeric L idx).length = L := by
  simp [generateAlphanumeric]

theorem length_hexOfBytes (bs : List Nat) :
    ((bs.map byteToHex).flatten).length = 2 * bs.length := by
  induction bs with
  | nil => rfl
  | cons b rest ih =>
    simp only [List.map_cons, List.flatten_cons, List.length_append, ih, byteToHex,
      List.length_cons, List.length_nil, List.length_cons]
    omega

theorem length_generateHex (L : Nat) (bs : List Nat) (h : bs.length = (L + 1) / 2) :
    (generateHex L bs).length = L := by
  unfold generateHex
  rw [List.length_take, length_hexOfBytes, h]
  omega

theorem miniLlmLoop_le_length (L : Nat) (pick : Nat → Nat) :
    ∀ n k out, L - out.length ≤ n → L ≤ (miniLlmLoop L pick k out).length := by
  intro n
  induction n with
  | zero =>
    intro k out h
    rw [miniLlmLoop]
    split
    · exfalso; omega
    · omega
  | succ n ih =>
    intro k out h
    rw [miniLlmLoop]
    split
    · apply ih
      simp only [List.length_append, sylAt_length]
      omega
    · omega

theorem length_generateMiniLlm (L : Nat) (pick : Nat → Nat) :
    (generateMiniLlm L pick).length = L := by
  unfold generateMiniLlm
  rw [List.length_take]
  have := miniLlmLoop_le_length L pick L 0 [] (by simp)
  omega

/-! One-step characterizations of `recordFailure` and the wrong-code branch
of `verify`. -/

theorem recordFailure_eq_no_jail (s : EncryptedOtpStore) (now iv : Nat) (jid : String)
    (h : ((mapGet s.failures jid).getD 0 + 1) % s.jailThreshold ≠ 0) :
    recordFailure s now iv jid =
      ((save { s with
          failures := mapSet s.failures jid ((mapGet s.failures jid).getD 0 + 1) } iv).1,
        []) := by
  simp [recordFailure, h]

theorem recordFailure_eq_jail (s : EncryptedOtpStore) (now iv : Nat) (jid : String)
    (h : ((mapGet s.failures jid).getD 0 + 1) % s.jailThreshold = 0) :
    recordFailure s now iv jid =
      ((save { s with
          failures := mapSet (mapSet s.failures jid ((mapGet s.failures jid).getD 0 + 1)) jid 0
          jailedUntil := mapSet s.jailedUntil jid (now + s.jailDurationMs) } iv).1,
        [Event.jailed jid (now + s.jailDurationMs)]) := by
  simp [recordFailure, h]

theorem verify_wrong_eq (s : EncryptedOtpStore) (now iv : Nat) (jid c : String)
    (e : OtpEntry) (hj : (mapGet s.jailedUntil jid).getD 0 ≤ now)
    (he : mapGet s.otpMap jid = some e) (hexp : now < e.expiresAt) (hc : e.code ≠ c) :
    verify s now iv jid c =
      { ok := false, store := (recordFailure s now iv jid).1
        events := (recordFailure s now iv jid).2 ++ [Event.failed jid] } := by
  have h1 : ¬now < (mapGet s.jailedUntil jid).getD 0 := by omega
  have h2 : ¬e.expiresAt ≤ now := by omega
  simp [verify, he, h1, h2, hc]

/-- Invariant of the consecutive wrong-code iteration below the jail
threshold: the entry survives, jail state is untouched and the failure
counter equals the number of attempts made so far. -/
theorem verifyIter_inv (s : EncryptedOtpStore) (now iv : Nat) (jid c : String)
    (e : OtpEntry) (hj : (mapGet s.jailedUntil jid).getD 0 ≤ now)
    (hf : (mapGet s.failures jid).getD 0 = 0)
    (he : mapGet s.otpMap jid = some e) (hexp : now < e.expiresAt) (hc : e.code ≠ c) :
    ∀ k, k < s.jailThreshold →
      mapGet (verifyIter s now iv jid c k).otpMap jid = some e ∧
      (verifyIter s now iv jid c k).jailedUntil = s.jailedUntil ∧
      (mapGet (verifyIter s now iv jid c k).failures jid).getD 0 = k ∧
      (verifyIter s now iv jid c k).jailThreshold = s.jailThreshold ∧
      (verifyIter s now iv jid c k).jailDurationMs = s.jailDurationMs := by
  intro k
  induction k with
  | zero =>
    intro _
    exact ⟨he, rfl, hf, rfl, rfl⟩
  | succ k ih =>
    intro hk
    have ihk := ih (by omega)
    obtain ⟨ihe, ihjail, ihfail, ihT, ihD⟩ := ihk
    set sk := verifyIter s now iv jid c k with hsk
    have hjk : (mapGet sk.jailedUntil jid).getD 0 ≤ now := by rw [ihjail]; exact hj
    have hmod : ((mapGet sk.failures jid).getD 0 + 1) % sk.jailThreshold ≠ 0 := by
      rw [ihfail, ihT, Nat.mod_eq_of_lt hk]
      omega
    have hstep : verifyIter s now iv jid c (k + 1) =
        (verify sk now iv jid c).store := rfl
    rw [hstep, verify_wrong_eq sk now iv jid c e hjk ihe hexp hc,
      recordFailure_eq_no_jail sk now iv jid hmod]
    refine ⟨?_, ?_, ?_, ?_, ?_⟩
    · simpa using ihe
    · simpa using ihjail
    · simp [ihfail, mapGet_set_self]
    · simpa using ihT
    · simpa using ihD

/-- The threshold-th consecutive wrong-code attempt jails the identity with
expiry `now + jailDurationMs` and resets its failure counter to zero. -/
theorem verifyIter_jails (s : EncryptedOtpStore) (now iv : Nat) (jid c : String)
    (e : OtpEntry) (hT : 0 < s.jailThreshold)
    (hj : (mapGet s.jailedUntil jid).getD 0 ≤ now)
    (hf : (mapGet s.failures jid).getD 0 = 0)
    (he : mapGet s.otpMap jid = some e) (hexp : now < e.expiresAt) (hc : e.code ≠ c) :
    mapGet (verifyIter s now iv jid c s.jailThreshold).jailedUntil jid =
      some (now + s.jailDurationMs) ∧
    (mapGet (verifyIter s now iv jid c s.jailThreshold).failures jid).getD 0 = 0 := by
  obtain ⟨T, hTeq⟩ : ∃ T, s.jailThreshold = T + 1 := ⟨s.jailThreshold - 1, by omega⟩
  have inv := verifyIter_inv s now iv jid c e hj hf he hexp hc T (by omega)
  obtain ⟨ihe, ihjail, ihfail, ihT, ihD⟩ := inv
  set sk := verifyIter s now iv jid c T with hsk
  have hjk : (mapGet sk.jailedUntil jid).getD 0 ≤ now := by rw [ihjail]; exact hj
  have hmod : ((mapGet sk.failures jid).getD 0 + 1) % sk.jailThreshold = 0 := by
    rw [ihfail, ihT, hTeq]
    simp
  have hstep : verifyIter s now iv jid c s.jailThreshold =
      (verify sk now iv jid c).store := by
    rw [hTeq]; rfl
  rw [hstep, verify_wrong_eq sk now iv jid c e hjk ihe hexp hc,
    recordFailure_eq_jail sk now iv jid hmod]
  constructor
  · simp [mapGet_set_self, ihjail, ihD]
  · simp [mapGet_set_self]

/-! Key-uniqueness lemmas and per-operation frame lemmas on `otpMap`. -/

theorem keys_mapSet_mem {α : Type} (m : List (String × α)) (k x : String) (v : α)
    (hx : x ∈ (mapSet m k v).map Prod.fst) : x ∈ m.map Prod.fst ∨ x = k := by
  induction m with
  | nil => simpa [mapSet] using hx
  | cons kv rest ih =>
    by_cases hk : kv.1 = k
    · simp only [mapSet, if_pos hk, List.map_cons] at hx
      rcases List.mem_cons.mp hx with h | h
      · right; exact h
      · left; simp [h]
    · simp only [mapSet, if_neg hk, List.map_cons] at hx
      rcases List.mem_cons.mp hx with h | h
      · left; simp [h]
      · rcases ih h with h1 | h1
        · left; simp [h1]
        · right; exact h1

theorem keysNodup_mapSet {α : Type} (m : List (String × α)) (k : String) (v : α)
    (h : keysNodup m) : keysNodup (mapSet m k v) := by
  induction m with
  | nil => simp [mapSet, keysNodup]
  | cons kv rest ih =>
    simp only [keysNodup, List.map_cons, List.nodup_cons] at h
    by_cases hk : kv.1 = k
    · simp only [keysNodup, mapSet, if_pos hk, List.map_cons, List.nodup_cons]
      exact ⟨hk ▸ h.1, h.2⟩
    · simp only [keysNodup, mapSet, if_neg hk, List.map_cons, List.nodup_cons]
      refine ⟨?_, ih h.2⟩
      intro hmem
      rcases keys_mapSet_mem rest k kv.1 v hmem with h1 | h1
      · exact h.1 h1
      · exact hk h1

theorem countKey_eq_zero {α : Type} (m : List (String × α)) (k : String)
    (h : k ∉ m.map Prod.fst) : countKey m k = 0 := by
  induction m with
  | nil => rfl
  | cons kv rest ih =>
    simp only [List.map_cons, List.mem_cons] at h
    push_neg at h
    have hne : ¬(kv.1 = k) := fun hh => h.1 hh.symm
    simp only [countKey, List.filter_cons, decide_eq_true_eq]
    rw [if_neg hne]
    exact ih h.2

theorem countKey_mapSet_self {α : Type} (m : List (String × α)) (k : String) (v : α)
    (h : keysNodup m) : countKey (mapSet m k v) k = 1 := by
  induction m with
  | nil => simp [mapSet, countKey]
  | cons kv rest ih =>
    simp only [keysNodup, List.map_cons, List.nodup_cons] at h
    by_cases hk : kv.1 = k
    · have h0 : countKey rest k = 0 := countKey_eq_zero rest k (hk ▸ h.1)
      simp only [countKey] at h0
      simp [mapSet, hk, countKey, List.filter_cons, h0]
    · have h1 := ih h.2
      simp only [countKey] at h1
      simp [mapSet, hk, countKey, List.filter_cons, h1]

@[simp]
theorem recordFailure_otpMap (s : EncryptedOtpStore) (now iv : Nat) (jid : String) :
    ((recordFailure s now iv jid).1).otpMap = s.otpMap := by
  simp only [recordFailure]
  split <;> simp

theorem verify_otpMap_sublist (s : EncryptedOtpStore) (now iv : Nat) (jid c : String) :
    List.Sublist ((verify s now iv jid c).store).otpMap s.otpMap := by
  by_cases h1 : now < (mapGet s.jailedUntil jid).getD 0
  · have he : ((verify s now iv jid c).store).otpMap = s.otpMap := by simp [verify, h1]
    rw [he]
  · cases hm : mapGet s.otpMap jid with
    | none =>
      have he : ((verify s now iv jid c).store).otpMap = s.otpMap := by
        simp [verify, h1, hm]
      rw [he]
    | some e =>
      by_cases h2 : e.expiresAt ≤ now
      · have he : ((verify s now iv jid c).store).otpMap = mapDelete s.otpMap jid := by
          simp [verify, h1, hm, h2]
        rw [he]
        exact List.filter_sublist s.otpMap
      · by_cases h3 : e.code = c
        · have he : ((verify s now iv jid c).store).otpMap = mapDelete s.otpMap jid := by
            simp [verify, h1, hm, h2, h3]
          rw [he]
          exact List.filter_sublist s.otpMap
        · have he : ((verify s now iv jid c).store).otpMap = s.otpMap := by
            simp [verify, h1, hm, h2, h3, recordFailure_otpMap]
          rw [he]

/-- The code string produced by one `generate` call. -/
def genCode (s : EncryptedOtpStore) (r : RandomSource) (rngO : Option RngType) : String :=
  String.mk (codeFor s.otpLength r (rngO.getD s.rngType))

/-- The success shape of `generate` on a non-jailed, non-empty jid. -/
theorem generate_ok (s : EncryptedOtpStore) (now : Nat) (r : RandomSource)
    (jid : String) (rngO : Option RngType) (hjid : jid ≠ "")
    (hj : ¬now < (mapGet s.jailedUntil jid).getD 0) :
    generate s now r jid rngO =
      { result := Except.ok ⟨genCode s r rngO, now + s.otpTTL * 1000⟩
        store := (save { s with
          otpMap := mapSet s.otpMap jid ⟨genCode s r rngO, now + s.otpTTL * 1000⟩ } r.iv).1
        events := [Event.generated jid (genCode s r rngO) (now + s.otpTTL * 1000)] } := by
  simp [generate, genCode, hjid, hj]

theorem orDefault_pos (v : Option Nat) (d : Nat) (hd : 0 < d) : 0 < orDefault v d := by
  match v with
  | none => exact hd
  | some 0 => exact hd
  | some (n + 1) => exact Nat.succ_pos n

/-! Claim theorems. -/

/-- C1: for every identity, after exactly `jailThreshold` consecutive
wrong-code `verify` calls (zero starting failure counter, unexpired entry
present, identity not jailed) the identity is jailed with
`until = now + jailDurationMs` and its failure counter is reset to 0, the
intermediate attempts leaving the jail map untouched and the counter equal
to the attempt count; and a `recordFailure` call jails exactly when the
incremented counter is a positive multiple of the configured threshold. -/
theorem jail_after_threshold_failures :
    (∀ (s : EncryptedOtpStore) (now iv : Nat) (jid c : String) (e : OtpEntry),
      0 < s.jailThreshold →
      (mapGet s.jailedUntil jid).getD 0 ≤ now →
      (mapGet s.failures jid).getD 0 = 0 →
      mapGet s.otpMap jid = some e → now < e.expiresAt → e.code ≠ c →
      mapGet (verifyIter s now iv jid c s.jailThreshold).jailedUntil jid =
        some (now + s.jailDurationMs) ∧
      (mapGet (verifyIter s now iv jid c s.jailThreshold).failures jid).getD 0 = 0 ∧
      (∀ k, k < s.jailThreshold →
        (verifyIter s now iv jid c k).jailedUntil = s.jailedUntil ∧
        (mapGet (verifyIter s now iv jid c k).failures jid).getD 0 = k)) ∧
    (∀ (s : EncryptedOtpStore) (now iv : Nat) (jid : String),
      ((recordFailure s now iv jid).2 = [Event.jailed jid (now + s.jailDurationMs)] ∧
        mapGet ((recordFailure s now iv jid).1).jailedUntil jid =
          some (now + s.jailDurationMs)) ↔
      (0 < (mapGet s.failures jid).getD 0 + 1 ∧
        ((mapGet s.failures jid).getD 0 + 1) % s.jailThreshold = 0)) := by
  constructor
  · intro s now iv jid c e hT hj hf he hexp hc
    refine ⟨(verifyIter_jails s now iv jid c e hT hj hf he hexp hc).1,
      (verifyIter_jails s now iv jid c e hT hj hf he hexp hc).2, ?_⟩
    intro k hk
    have inv := verifyIter_inv s now iv jid c e hj hf he hexp hc k hk
    exact ⟨inv.2.1, inv.2.2.1⟩
  · intro s now iv jid
    by_cases h : ((mapGet s.failures jid).getD 0 + 1) % s.jailThreshold = 0
    · rw [recordFailure_eq_jail s now iv jid h]
      simp [mapGet_set_self, h]
    · rw [recordFailure_eq_no_jail s now iv jid h]
      simp [h]

theorem jail_after_threshold_failures_witness :
    mapGet (verifyIter ⟨none, 300, 4, RngType.numeric, 3, 1000,
        [("a", ⟨"1234", 100⟩)], [], [], none⟩ 50 0 "a" "0" 3).jailedUntil "a" =
      some 1050 ∧
    (mapGet (verifyIter ⟨none, 300, 4, RngType.numeric, 3, 1000,
        [("a", ⟨"1234", 100⟩)], [], [], none⟩ 50 0 "a" "0" 3).failures "a").getD 0 = 0 :=
  ⟨(jail_after_threshold_failures.1 _ 50 0 "a" "0" ⟨"1234", 100⟩ (by decide) (by decide)
      (by decide) (by decide) (by decide) (by decide)).1,
    (jail_after_threshold_failures.1 _ 50 0 "a" "0" ⟨"1234", 100⟩ (by decide) (by decide)
      (by decide) (by decide) (by decide) (by decide)).2.1⟩

/-- C2: for every identity with an active jail record (`now < until`),
`generate` throws the lockout error carrying the jail expiry after emitting
`attemptWhileJailed`, `verify` returns false after emitting `verifyBlocked`,
and neither call changes any store state. -/
theorem jailed_blocks_generate_and_verify (s : EncryptedOtpStore) (now iv : Nat)
    (r : RandomSource) (jid c : String) (rngO : Option RngType) (u : Nat)
    (hjid : jid ≠ "") (hu : mapGet s.jailedUntil jid = some u) (hnow : now < u) :
    generate s now r jid rngO =
      { result := Except.error (GenErr.jailed u), store := s
        events := [Event.attemptWhileJailed jid u] } ∧
    verify s now iv jid c =
      { ok := false, store := s, events := [Event.verifyBlocked jid u] } := by
  constructor
  · simp [generate, hjid, hu, hnow]
  · simp [verify, hu, hnow]

theorem jailed_blocks_generate_and_verify_witness :
    generate ⟨none, 300, 6, RngType.numeric, 3, 1000, [], [], [("a", 100)], none⟩
        50 ⟨0, fun _ => 0, [], fun _ => 0, 0⟩ "a" none =
      { result := Except.error (GenErr.jailed 100)
        store := ⟨none, 300, 6, RngType.numeric, 3, 1000, [], [], [("a", 100)], none⟩
        events := [Event.attemptWhileJailed "a" 100] } ∧
    verify ⟨none, 300, 6, RngType.numeric, 3, 1000, [], [], [("a", 100)], none⟩
        50 0 "a" "x" =
      { ok := false
        store := ⟨none, 300, 6, RngType.numeric, 3, 1000, [], [], [("a", 100)], none⟩
        events := [Event.verifyBlocked "a" 100] } :=
  jailed_blocks_generate_and_verify _ 50 0 _ "a" "x" none 100 (by decide) (by decide)
    (by decide)

/-- C3: for a non-jailed identity with an unexpired stored entry, `verify`
with the stored code returns true, deletes the entry and clears the failure
counter, and an immediately repeated `verify` with the same code returns
false without further state change: a correct code verifies exactly once. -/
theorem verify_correct_code_consumes_entry (s : EncryptedOtpStore) (now iv : Nat)
    (jid : String) (e : OtpEntry)
    (hj : (mapGet s.jailedUntil jid).getD 0 ≤ now)
    (he : mapGet s.otpMap jid = some e) (hexp : now < e.expiresAt) :
    (verify s now iv jid e.code).ok = true ∧
    mapGet ((verify s now iv jid e.code).store).otpMap jid = none ∧
    mapGet ((verify s now iv jid e.code).store).failures jid = none ∧
    (verify s now iv jid e.code).events = [Event.verified jid] ∧
    verify ((verify s now iv jid e.code).store) now iv jid e.code =
      { ok := false, store := (verify s now iv jid e.code).store, events := [] } := by
  have h1 : ¬now < (mapGet s.jailedUntil jid).getD 0 := by omega
  have h2 : ¬e.expiresAt ≤ now := by omega
  have hv : verify s now iv jid e.code =
      { ok := true
        store := (save { s with
            otpMap := mapDelete s.otpMap jid
            failures := mapDelete s.failures jid } iv).1
        events := [Event.verified jid] } := by
    simp [verify, he, h1, h2]
  rw [hv]
  have hnone : mapGet ((save { s with
      otpMap := mapDelete s.otpMap jid
      failures := mapDelete s.failures jid } iv).1).otpMap jid = none := by
    simp [mapGet_delete_self]
  have hj2 : ¬now < (mapGet ((save { s with
      otpMap := mapDelete s.otpMap jid
      failures := mapDelete s.failures jid } iv).1).jailedUntil jid).getD 0 := by
    simpa using h1
  refine ⟨rfl, hnone, ?_, rfl, ?_⟩
  · simp [mapGet_delete_self]
  · simp [verify, h1, mapGet_delete_self]

theorem verify_correct_code_consumes_entry_witness :
    (verify ⟨none, 300, 4, RngType.numeric, 3, 1000,
        [("a", ⟨"1234", 100⟩)], [("a", 2)], [], none⟩ 50 0 "a" "1234").ok = true ∧
    mapGet ((verify ⟨none, 300, 4, RngType.numeric, 3, 1000,
        [("a", ⟨"1234", 100⟩)], [("a", 2)], [], none⟩ 50 0 "a" "1234").store).otpMap "a" =
      none ∧
    mapGet ((verify ⟨none, 300, 4, RngType.numeric, 3, 1000,
        [("a", ⟨"1234", 100⟩)], [("a", 2)], [], none⟩ 50 0 "a" "1234").store).failures "a" =
      none ∧
    (verify ⟨none, 300, 4, RngType.numeric, 3, 1000,
        [("a", ⟨"1234", 100⟩)], [("a", 2)], [], none⟩ 50 0 "a" "1234").events =
      [Event.verified "a"] ∧
    verify ((verify ⟨none, 300, 4, RngType.numeric, 3, 1000,
        [("a", ⟨"1234", 100⟩)], [("a", 2)], [], none⟩ 50 0 "a" "1234").store) 50 0 "a" "1234" =
      { ok := false
        store := (verify ⟨none, 300, 4, RngType.numeric, 3, 1000,
          [("a", ⟨"1234", 100⟩)], [("a", 2)], [], none⟩ 50 0 "a" "1234").store
        events := [] } :=
  verify_correct_code_consumes_entry _ 50 0 "a" ⟨"1234", 100⟩ (by decide) (by decide)
    (by decide)

/-- C9: `generate` called with an empty identity throws the validation
error synchronously, with no state mutation, no persistence and no event,
for every store configuration. -/
theorem generate_empty_jid_throws (s : EncryptedOtpStore) (now : Nat)
    (r : RandomSource) (rngO : Option RngType) :
    generate s now r "" rngO =
      { result := Except.error GenErr.jidRequired, store := s, events := [] } := by
  simp [generate]

/-- C10: for a non-jailed identity with no stored entry, `verify` returns
false with no state change and no event (in particular no `failed` event and
no failure-counter increment); and an attempt on an expired entry also
leaves the failure counter and jail map untouched, emitting only `expired`:
failure counting advances only on wrong-code attempts made while an
unexpired entry exists. -/
theorem verify_no_entry_no_failure_count (s : EncryptedOtpStore) (now iv : Nat)
    (jid c : String) (hj : (mapGet s.jailedUntil jid).getD 0 ≤ now) :
    (mapGet s.otpMap jid = none →
      verify s now iv jid c = { ok := false, store := s, events := [] }) ∧
    (∀ e, mapGet s.otpMap jid = some e → e.expiresAt ≤ now →
      (verify s now iv jid c).ok = false ∧
      ((verify s now iv jid c).store).failures = s.failures ∧
      ((verify s now iv jid c).store).jailedUntil = s.jailedUntil ∧
      (verify s now iv jid c).events = [Event.expired jid]) := by
  have h1 : ¬now < (mapGet s.jailedUntil jid).getD 0 := by omega
  constructor
  · intro hn
    simp [verify, hn, h1]
  · intro e he hexp
    simp [verify, he, h1, hexp]

theorem verify_no_entry_no_failure_count_witness :
    verify ⟨none, 300, 6, RngType.numeric, 3, 1000, [], [("b", 1)], [], none⟩ 50 0 "a" "x" =
      { ok := false
        store := ⟨none, 300, 6, RngType.numeric, 3, 1000, [], [("b", 1)], [], none⟩
        events := [] } :=
  (verify_no_entry_no_failure_count _ 50 0 "a" "x" (by decide)).1 (by decide)

/-- C4: at most one OTP entry per identity — a successful `generate` writes
the single entry for its jid (overwriting, preserving key uniqueness, and
leaving every other identity's lookup unchanged), while `verify`, `delete`
and `cleanup` only ever remove entries (the result is a sublist) and
`unjail` leaves the entry map untouched. -/
theorem single_entry_invariant :
    (∀ (s : EncryptedOtpStore) (now : Nat) (r : RandomSource) (jid : String)
        (rngO : Option RngType), jid ≠ "" →
      ¬now < (mapGet s.jailedUntil jid).getD 0 →
      ((generate s now r jid rngO).store).otpMap =
        mapSet s.otpMap jid ⟨genCode s r rngO, now + s.otpTTL * 1000⟩ ∧
      (keysNodup s.otpMap →
        keysNodup ((generate s now r jid rngO).store).otpMap ∧
        countKey ((generate s now r jid rngO).store).otpMap jid = 1 ∧
        ∀ k1, k1 ≠ jid →
          mapGet ((generate s now r jid rngO).store).otpMap k1 = mapGet s.otpMap k1)) ∧
    (∀ (s : EncryptedOtpStore) (now iv : Nat) (jid c : String),
      List.Sublist ((verify s now iv jid c).store).otpMap s.otpMap ∧
      List.Sublist (((deleteOtp s iv jid).2.1)).otpMap s.otpMap ∧
      List.Sublist (((cleanup s now iv).2)).otpMap s.otpMap ∧
      (((unjail s iv jid).2.1)).otpMap = s.otpMap) := by
  constructor
  · intro s now r jid rngO hjid hj
    have hmap : ((generate s now r jid rngO).store).otpMap =
        mapSet s.otpMap jid ⟨genCode s r rngO, now + s.otpTTL * 1000⟩ := by
      rw [generate_ok s now r jid rngO hjid hj]
      simp
    refine ⟨hmap, ?_⟩
    intro hn
    rw [hmap]
    exact ⟨keysNodup_mapSet s.otpMap jid _ hn, countKey_mapSet_self s.otpMap jid _ hn,
      fun k1 hk1 => mapGet_set_ne s.otpMap jid k1 _ hk1⟩
  · intro s now iv jid c
    refine ⟨verify_otpMap_sublist s now iv jid c, ?_, ?_, ?_⟩
    · have he : (((deleteOtp s iv jid).2.1)).otpMap = mapDelete s.otpMap jid := by
        by_cases h : (mapGet s.otpMap jid).isSome <;> simp [deleteOtp, h]
      rw [he]
      exact List.filter_sublist s.otpMap
    · have he : (((cleanup s now iv).2)).otpMap =
          s.otpMap.filter (fun kv => decide (now < kv.2.expiresAt)) := by
        by_cases h : s.otpMap.any (fun kv => decide (kv.2.expiresAt ≤ now)) <;>
          simp [cleanup, h]
      rw [he]
      exact List.filter_sublist s.otpMap
    · by_cases h : (mapGet s.jailedUntil jid).isSome <;> simp [unjail, h]

theorem single_entry_invariant_witness :
    countKey ((generate ⟨none, 300, 6, RngType.numeric, 3, 1000,
        [("a", ⟨"9999", 100⟩)], [], [], none⟩ 50
        ⟨7, fun _ => 0, [], fun _ => 0, 0⟩ "a" none).store).otpMap "a" = 1 ∧
    List.Sublist (((cleanup ⟨none, 300, 6, RngType.numeric, 3, 1000,
        [("a", ⟨"9999", 100⟩)], [], [], none⟩ 50 0).2)).otpMap
      [("a", ⟨"9999", 100⟩)] :=
  ⟨((single_entry_invariant.1 _ 50 ⟨7, fun _ => 0, [], fun _ => 0, 0⟩ "a" none
      (by decide) (by decide)).2 (by decide)).2.1,
    (single_entry_invariant.2 _ 50 0 "a" "x").2.2.1⟩

/-- C8: for every constructor configuration, every code family and every
valid random sample, `generate` succeeds on a fresh store and returns a
code whose length is exactly the configured length (recall the constructor
maps a falsy `otpLength` to 6, so the effective length is positive). -/
theorem generated_code_length (o : StoreOpts) (now : Nat) (r : RandomSource)
    (jid : String) (rngO : Option RngType) (hjid : jid ≠ "")
    (hr : r.Valid (mkStore o).otpLength) :
    ∃ res, (generate (mkStore o) now r jid rngO).result = Except.ok res ∧
      res.code.length = (mkStore o).otpLength := by
  have hj : ¬now < (mapGet (mkStore o).jailedUntil jid).getD 0 := by
    simp [mkStore, mapGet]
  refine ⟨⟨genCode (mkStore o) r rngO, now + (mkStore o).otpTTL * 1000⟩, ?_, ?_⟩
  · rw [generate_ok (mkStore o) now r jid rngO hjid hj]
  · have hL : 0 < (mkStore o).otpLength := by
      simp only [mkStore]
      exact orDefault_pos o.otpLength 6 (by decide)
    obtain ⟨hnum, hidx, hbytes, hsyl⟩ := hr
    show (String.mk (codeFor (mkStore o).otpLength r (rngO.getD (mkStore o).rngType))).length
      = (mkStore o).otpLength
    have hmk : ∀ l : List Char, (String.mk l).length = l.length := fun l => rfl
    rw [hmk]
    cases rngO.getD (mkStore o).rngType with
    | numeric => exact length_generateNumeric _ r.num hL hnum
    | alphanumeric => exact length_generateAlphanumeric _ r.idx
    | hex => exact length_generateHex _ r.bytes hbytes
    | miniLlm => exact length_generateMiniLlm _ r.syl

theorem generated_code_length_witness :
    ∃ res, (generate (mkStore ⟨none, none, some 5, some RngType.hex, none, none⟩) 50
        ⟨0, fun _ => 1, [16, 160, 7], fun _ => 2, 0⟩ "a" none).result = Except.ok res ∧
      res.code.length = (mkStore ⟨none, none, some 5, some RngType.hex, none, none⟩).otpLength :=
  generated_code_length ⟨none, none, some 5, some RngType.hex, none, none⟩ 50
    ⟨0, fun _ => 1, [16, 160, 7], fun _ => 2, 0⟩ "a" none (by decide)
    ⟨by decide, fun i => by change (1 : Nat) < alphaChars.length; decide, by decide,
      fun i => by change (2 : Nat) < syllables.length; decide⟩

/-- C5: with a configured key, `save` followed by `load` reproduces the
three maps exactly; decrypting under a wrong key fails, decrypting a
payload-tampered envelope fails, and a failing `load` returns false leaving
the in-memory maps (the whole store) unchanged. -/
theorem persist_roundtrip_and_tamper (s : EncryptedOtpStore) (key : Key) (iv : Nat)
    (hk : s.keyHex = some key) (h1 : keysNodup s.otpMap) (h2 : keysNodup s.failures)
    (h3 : keysNodup s.jailedUntil) :
    (save s iv).2 = true ∧
    (load ((save s iv).1)).2 = true ∧
    ((load ((save s iv).1)).1).otpMap = s.otpMap ∧
    ((load ((save s iv).1)).1).failures = s.failures ∧
    ((load ((save s iv).1)).1).jailedUntil = s.jailedUntil ∧
    (∀ k2, k2 ≠ key → decryptObject (encryptObject (storeObj s) key iv) k2 = none) ∧
    (∀ d, d ≠ storeObj s →
      decryptObject { encryptObject (storeObj s) key iv with data := d } key = none) ∧
    (∀ c, decryptObject c key = none →
      load { s with file := some c } = ({ s with file := some c }, false)) := by
  have hsave : save s iv =
      ({ s with file := some (encryptObject (storeObj s) key iv) }, true) := by
    simp [save, hk]
  have hdec : decryptObject (encryptObject (storeObj s) key iv) key =
      some (storeObj s) := by
    simp [decryptObject, encryptObject]
  have hload : load ((save s iv).1) =
      ({ (save s iv).1 with
          otpMap := loadEntries [] s.otpMap
          failures := loadEntries s.failures s.failures
          jailedUntil := loadEntries s.jailedUntil s.jailedUntil }, true) := by
    rw [hsave]
    simp only [load, hk, hdec]
    simp [storeObj]
  refine ⟨by rw [hsave], ?_, ?_, ?_, ?_, ?_, ?_, ?_⟩
  · rw [hload]
  · rw [hload]
    simpa using loadEntries_nil_init s.otpMap h1
  · rw [hload]
    simpa using loadEntries_self s.failures h2
  · rw [hload]
    simpa using loadEntries_self s.jailedUntil h3
  · intro k2 hk2
    simp [decryptObject, encryptObject, Ne.symm hk2]
  · intro d hd
    simp [decryptObject, encryptObject, Ne.symm hd]
  · intro c hc
    simp [load, hk, hc]

theorem persist_roundtrip_and_tamper_witness :
    ((load ((save ⟨some "k", 300, 6, RngType.numeric, 3, 1000, [("a", ⟨"12", 100⟩)],
        [("b", 1)], [("c", 5)], none⟩ 9).1)).1).otpMap = [("a", ⟨"12", 100⟩)] ∧
    decryptObject (encryptObject (storeObj ⟨some "k", 300, 6, RngType.numeric, 3, 1000,
        [("a", ⟨"12", 100⟩)], [("b", 1)], [("c", 5)], none⟩) "k" 9) "x" = none ∧
    load { (⟨some "k", 300, 6, RngType.numeric, 3, 1000, [("a", ⟨"12", 100⟩)],
        [("b", 1)], [("c", 5)], none⟩ : EncryptedOtpStore) with
          file := some ⟨0, "x", ⟨[], [], []⟩, ⟨[], [], []⟩⟩ } =
      ({ (⟨some "k", 300, 6, RngType.numeric, 3, 1000, [("a", ⟨"12", 100⟩)],
        [("b", 1)], [("c", 5)], none⟩ : EncryptedOtpStore) with
          file := some ⟨0, "x", ⟨[], [], []⟩, ⟨[], [], []⟩⟩ }, false) :=
  ⟨(persist_roundtrip_and_tamper _ "k" 9 rfl (by decide) (by decide) (by decide)).2.2.1,
    (persist_roundtrip_and_tamper _ "k" 9 rfl (by decide) (by decide)
      (by decide)).2.2.2.2.2.1 "x" (by decide),
    (persist_roundtrip_and_tamper _ "k" 9 rfl (by decide) (by decide)
      (by decide)).2.2.2.2.2.2.2 ⟨0, "x", ⟨[], [], []⟩, ⟨[], [], []⟩⟩ (by decide)⟩

/-! Empty-rule-list lemmas for the Access Policy Evaluator. -/

@[simp]
theorem matchWithOption_nil (ap : Bool) (v : Option String) :
    matchWithOption ap [] v = false := by
  cases v with
  | none => rfl
  | some t => simp [matchWithOption]

@[simp]
theorem matchStartsWith_nil (v : Option String) : matchStartsWith [] v = false := by
  cases v with
  | none => rfl
  | some t => simp [matchStartsWith]

@[simp]
theorem isTextBlacklisted_nil (rt : String → String → Bool) (t : Option String) :
    isTextBlacklisted rt [] t = false := by
  cases t with
  | none => rfl
  | some t => simp [isTextBlacklisted]

/-- C6: in whitelist mode with zero configured whitelist entries,
`isMessageAllowed` denies every message, for every text/sender/group input,
every blacklist and option set, and every regex oracle; with a wholly empty
configuration (no whitelist, no blacklist, default mode and options) it
allows every message. -/
theorem whitelist_mode_empty_denies_empty_config_allows :
    (∀ (cfg : AccessConfig) (rt : String → String → Bool) (m : MsgOpts),
      cfg.mode = some AccessMode.whitelist → cfg.whitelist = {} →
      isMessageAllowed cfg rt m = false) ∧
    (∀ (rt : String → String → Bool) (m : MsgOpts),
      isMessageAllowed {} rt m = true) := by
  constructor
  · intro cfg rt m hm hw
    simp [isMessageAllowed, hm, hw]
  · intro rt m
    simp [isMessageAllowed, isContactBlacklisted, isGroupBlacklisted]

theorem whitelist_mode_empty_denies_empty_config_allows_witness :
    isMessageAllowed ⟨some AccessMode.whitelist, {}, {}, {}⟩ (fun _ _ => true)
      ⟨some "roll d20", some "u1", true, some "G1"⟩ = false ∧
    isMessageAllowed {} (fun _ _ => true)
      ⟨some "roll d20", some "u1", false, none⟩ = true :=
  ⟨whitelist_mode_empty_denies_empty_config_allows.1 _ (fun _ _ => true)
      ⟨some "roll d20", some "u1", true, some "G1"⟩ rfl rfl,
    whitelist_mode_empty_denies_empty_config_allows.2 (fun _ _ => true)
      ⟨some "roll d20", some "u1", false, none⟩⟩

/-! `cleanup` projections and idempotence. -/

theorem cleanup_fst (s : EncryptedOtpStore) (now iv : Nat) :
    (cleanup s now iv).1 = s.otpMap.any (fun kv => decide (kv.2.expiresAt ≤ now)) := by
  by_cases h : s.otpMap.any (fun kv => decide (kv.2.expiresAt ≤ now)) <;> simp [cleanup, h]

theorem cleanup_otpMap (s : EncryptedOtpStore) (now iv : Nat) :
    ((cleanup s now iv).2).otpMap =
      s.otpMap.filter (fun kv => decide (now < kv.2.expiresAt)) := by
  by_cases h : s.otpMap.any (fun kv => decide (kv.2.expiresAt ≤ now)) <;> simp [cleanup, h]

theorem cleanup_jailedUntil (s : EncryptedOtpStore) (now iv : Nat) :
    ((cleanup s now iv).2).jailedUntil =
      s.jailedUntil.filter (fun kv => decide (now < kv.2)) := by
  by_cases h : s.otpMap.any (fun kv => decide (kv.2.expiresAt ≤ now)) <;> simp [cleanup, h]

theorem cleanup_failures (s : EncryptedOtpStore) (now iv : Nat) :
    ((cleanup s now iv).2).failures = s.failures := by
  by_cases h : s.otpMap.any (fun kv => decide (kv.2.expiresAt ≤ now)) <;> simp [cleanup, h]

theorem cleanup_idem (s : EncryptedOtpStore) (now iv : Nat) :
    cleanup ((cleanup s now iv).2) now iv = (false, (cleanup s now iv).2) := by
  have hot := cleanup_otpMap s now iv
  have hjl := cleanup_jailedUntil s now iv
  have hany2 : ((cleanup s now iv).2).otpMap.any
      (fun kv => decide (kv.2.expiresAt ≤ now)) = false := by
    rw [hot, List.any_eq_false]
    intro kv hkv
    rw [List.mem_filter, decide_eq_true_eq] at hkv
    simpa using Nat.not_le.mpr hkv.2
  have hfo : ((cleanup s now iv).2).otpMap.filter
      (fun kv => decide (now < kv.2.expiresAt)) = ((cleanup s now iv).2).otpMap := by
    rw [hot, List.filter_filter]
    simp
  have hfj : ((cleanup s now iv).2).jailedUntil.filter
      (fun kv => decide (now < kv.2)) = ((cleanup s now iv).2).jailedUntil := by
    rw [hjl, List.filter_filter]
    simp
  set s2 := (cleanup s now iv).2 with hs2
  simp [cleanup, hany2, hfo, hfj]

/-- C7 counterexample: a `cleanup` run on a store holding only an expired
jail record (and a configured key) changes the in-memory state — the jail
record is removed — yet does not persist: the file is untouched. This
refutes "persists the state whenever anything changed"; only OTP-entry
removal marks the state as changed. -/
theorem cleanup_jail_change_not_persisted :
    ((cleanup ⟨some "k", 300, 6, RngType.numeric, 3, 1000, [], [], [("a", 5)], none⟩
        10 0).2).jailedUntil ≠
      (⟨some "k", 300, 6, RngType.numeric, 3, 1000, [], [], [("a", 5)], none⟩ :
        EncryptedOtpStore).jailedUntil ∧
    ((cleanup ⟨some "k", 300, 6, RngType.numeric, 3, 1000, [], [], [("a", 5)], none⟩
        10 0).2).file =
      (⟨some "k", 300, 6, RngType.numeric, 3, 1000, [], [], [("a", 5)], none⟩ :
        EncryptedOtpStore).file ∧
    (cleanup ⟨some "k", 300, 6, RngType.numeric, 3, 1000, [], [], [("a", 5)], none⟩
        10 0).1 = false :=
  ⟨by decide, rfl, rfl⟩

/-- C7 (amended): `cleanup` removes exactly the expired OTP entries and the
expired jail records, returns true iff at least one OTP entry was removed,
persists (encrypts the swept state into the file) exactly when at least one
OTP entry was removed — removing only expired jail records does not trigger
persistence — and an immediately repeated call removes nothing, changes
nothing and returns false. -/
theorem cleanup_spec_amended (s : EncryptedOtpStore) (now iv : Nat) :
    ((cleanup s now iv).1 = true ↔ ∃ kv ∈ s.otpMap, kv.2.expiresAt ≤ now) ∧
    (∀ kv, kv ∈ ((cleanup s now iv).2).otpMap ↔
      kv ∈ s.otpMap ∧ now < kv.2.expiresAt) ∧
    (∀ kv, kv ∈ ((cleanup s now iv).2).jailedUntil ↔
      kv ∈ s.jailedUntil ∧ now < kv.2) ∧
    ((cleanup s now iv).1 = false → ((cleanup s now iv).2).file = s.file) ∧
    (∀ key, (cleanup s now iv).1 = true → s.keyHex = some key →
      ((cleanup s now iv).2).file =
        some (encryptObject (storeObj ((cleanup s now iv).2)) key iv)) ∧
    cleanup ((cleanup s now iv).2) now iv = (false, (cleanup s now iv).2) := by
  refine ⟨?_, ?_, ?_, ?_, ?_, cleanup_idem s now iv⟩
  · rw [cleanup_fst, List.any_eq_true]
    simp
  · intro kv
    rw [cleanup_otpMap]
    simp [List.mem_filter]
  · intro kv
    rw [cleanup_jailedUntil]
    simp [List.mem_filter]
  · intro hfalse
    rw [cleanup_fst] at hfalse
    simp [cleanup, hfalse]
  · intro key htrue hkey
    rw [cleanup_fst] at htrue
    rw [show ((cleanup s now iv).2) = (cleanup s now iv).2 from rfl]
    simp [cleanup, htrue, save, hkey, storeObj]

theorem cleanup_spec_amended_witness :
    (cleanup ⟨some "k", 300, 6, RngType.numeric, 3, 1000, [("a", ⟨"1", 5⟩)], [],
        [("b", 7)], none⟩ 10 2).1 = true ∧
    cleanup ((cleanup ⟨some "k", 300, 6, RngType.numeric, 3, 1000, [("a", ⟨"1", 5⟩)], [],
        [("b", 7)], none⟩ 10 2).2) 10 2 =
      (false, (cleanup ⟨some "k", 300, 6, RngType.numeric, 3, 1000, [("a", ⟨"1", 5⟩)], [],
        [("b", 7)], none⟩ 10 2).2) :=
  ⟨(cleanup_spec_amended _ 10 2).1.mpr ⟨("a", ⟨"1", 5⟩), by decide, by decide⟩,
    (cleanup_spec_amended _ 10 2).2.2.2.2.2⟩

end RollBot
